import Mathlib

/-!
Verification development for the stack-builder branch reconciliation engine
(sb/utils/git.py and sb/workflows/update_repo.py).

The git repository is shallowly embedded as a state machine. A branch is a
named reference carrying a tip commit id and the set of commit ids reachable
from the tip; ahead/behind counts (git rev-list --left-right --count A...B)
are the cardinalities of the two set differences. Mutating git commands are
recorded in an append-only event log so that claims of the form "performs no
mutation" or "X happens before Y" are directly observable. Outcomes of the
external git subprocess (pull/fetch/push flag reports, merge or rebase
conflict results and resulting histories) are passed in as explicit oracle
values: the control logic translated from the Python source decides what to
do with them, which is exactly what the claims are about.
-/

namespace SB

/-- Status enum of sb/utils/git.py: relation of a branch to its upstream. -/
inductive Status
  | UP_TO_DATE
  | BEHIND
  | DIVERGED
  | AHEAD
  | NO_UPSTREAM
deriving DecidableEq, Repr

/-- UserAnswer enum of sb/utils/config.py. -/
inductive UserAnswer
  | YES
  | NO
  | INTERACTIVE
deriving DecidableEq, Repr

/-- Errors raised by the embedded operations; each constructor corresponds to
one GitRepoError / ValueError / AssertionError raise site in the source. -/
inductive GitError
  | unknownBranch (name : String)
  | noBranchComparison (a b : String)
  | pullFailed (branch : String)
  | fetchFailed (branch : String)
  | divergedPull (branch : String)
  | noUpstreamPull (branch : String)
  | pushFailed (branch : String)
  | divergedPush (branch : String)
  | branchExists (name : String)
  | dirtyReset (branch : String)
  | dirtySwitch (branch : String)
  | dirtyRepoRebase
  | rebaseConflict (branch : String)
  | mergeConflict (branch : String)
  | invariantViolation (branch : String)
  | assertionFailed
deriving DecidableEq, Repr

/-- Mutating git commands issued by the code, recorded in an append-only log. -/
inductive Event
  | fetchAll
  | pull (branch : String)
  | fetchBranch (branch : String)
  | resetTo (branch : String) (tip : Nat)
  | rebaseOnto (branch : String) (ontoTip : Nat)
  | mergeInto (branch : String) (fromRef : String)
  | pushBranch (branch : String) (force : Bool)
  | newHead (name : String) (tip : Nat)
  | deleteHead (name : String)
deriving DecidableEq, Repr

/-- A remote-tracking reference: tip commit and set of reachable commits. -/
structure RBranch where
  tip : Nat
  reach : Finset Nat
deriving DecidableEq

/-- A local branch: tip commit, reachable commits, and the optional name of
the remote-tracking branch it is configured against. -/
structure LBranch where
  tip : Nat
  reach : Finset Nat
  tracking : Option String
deriving DecidableEq

/-- State of one GitRepo: local branches, remote-tracking branches (keyed by
full name such as "origin/develop"), remote names, the checked-out branch,
the dirty-working-tree flag, the repository attributes main_branch_name and
default_remote, and the log of mutating commands issued so far. -/
structure GitState where
  branches : List (String × LBranch)
  remoteBranches : List (String × RBranch)
  remotes : List String
  activeBranch : String
  dirty : Bool
  mainBranch : String
  defaultRemote : String
  log : List Event
deriving DecidableEq

instance : DecidableEq (Except GitError Status) := fun a b =>
  match a, b with
  | Except.ok x, Except.ok y =>
    if h : x = y then isTrue (by rw [h]) else isFalse (fun hc => h (by injection hc))
  | Except.error x, Except.error y =>
    if h : x = y then isTrue (by rw [h]) else isFalse (fun hc => h (by injection hc))
  | Except.ok _, Except.error _ => isFalse (fun hc => Except.noConfusion hc)
  | Except.error _, Except.ok _ => isFalse (fun hc => Except.noConfusion hc)

/-- Association-list lookup by branch name (first match). -/
def assocLookup {β : Type} (l : List (String × β)) (key : String) : Option β :=
  match l with
  | [] => none
  | (k, v) :: rest => if k = key then some v else assocLookup rest key

/-- Lookup of a local branch by name (GitRepo.branch). -/
def lookupBranch (st : GitState) (name : String) : Option LBranch :=
  assocLookup st.branches name

/-- Lookup of a remote-tracking branch by full name (GitRepo.remote_branch). -/
def lookupRemote (st : GitState) (name : String) : Option RBranch :=
  assocLookup st.remoteBranches name

/-- Append an event to the command log. -/
def logEvent (st : GitState) (e : Event) : GitState :=
  { st with log := st.log ++ [e] }

/-- Pointwise update of the entries of the given name in a branch list,
moving them to the given tip and reachable set. -/
def setEntryTip (l : List (String × LBranch)) (name : String) (tip : Nat)
    (reach : Finset Nat) : List (String × LBranch) :=
  match l with
  | [] => []
  | (k, v) :: rest =>
    if k = name then (k, { v with tip := tip, reach := reach }) :: setEntryTip rest name tip reach
    else (k, v) :: setEntryTip rest name tip reach

/-- Pointwise replacement of the entries of the given name in a branch list. -/
def setEntryFull (l : List (String × LBranch)) (name : String) (b : LBranch) :
    List (String × LBranch) :=
  match l with
  | [] => []
  | (k, v) :: rest =>
    if k = name then (k, b) :: setEntryFull rest name b
    else (k, v) :: setEntryFull rest name b

/-- Update the tip and reachable set of the named local branch, keeping its
tracking configuration. -/
def setBranchTip (st : GitState) (name : String) (tip : Nat) (reach : Finset Nat) :
    GitState :=
  { st with branches := setEntryTip st.branches name tip reach }

/-- Replace the named local branch entirely (tip, reach and tracking). -/
def setBranchFull (st : GitState) (name : String) (b : LBranch) : GitState :=
  { st with branches := setEntryFull st.branches name b }

/-- Append a new local branch (git create_head). -/
def addBranch (st : GitState) (name : String) (b : LBranch) : GitState :=
  { st with branches := st.branches ++ [(name, b)] }

/-- Delete a local branch (git branch -d). -/
def deleteBranch (st : GitState) (name : String) : GitState :=
  { st with
    branches := st.branches.filter (fun p => p.1 ≠ name),
    log := st.log ++ [Event.deleteHead name] }

/-- Resolve a reference name to its tip and reachable set: local branches
shadow remote-tracking branches, as in git rev-parse. Returns none when the
name is not a known branch, which models the GitRepoError existence check at
the start of GitRepo.branch_status. -/
def reachOfRef (st : GitState) (name : String) : Option (Nat × Finset Nat) :=
  match lookupBranch st name with
  | some b => some (b.tip, b.reach)
  | none =>
    match lookupRemote st name with
    | some r => some (r.tip, r.reach)
    | none => none

/-- Mapping from the (ahead, behind) rev-list counts to a Status, translated
from the final if-chain of GitRepo.branch_status. -/
def statusOfCounts (ahead behind : Nat) : Status :=
  if ahead = 0 ∧ behind = 0 then Status.UP_TO_DATE
  else if behind = 0 then Status.AHEAD
  else if ahead = 0 then Status.BEHIND
  else Status.DIVERGED

/-- Comparison of two named references: the existence check plus the
"git rev-list --left-right --count a...b" count computation of
GitRepo.branch_status. The ahead count is the number of commits reachable
from a but not b, the behind count the converse. -/
def statusVs (st : GitState) (a b : String) : Except GitError Status :=
  match reachOfRef st a, reachOfRef st b with
  | some ra, some rb =>
    Except.ok (statusOfCounts ((ra.2 \ rb.2).card) ((rb.2 \ ra.2).card))
  | _, _ => Except.error (GitError.noBranchComparison a b)

/-- GitRepo.branch_status. When no comparison target is given, the branch is
compared against its own tracking branch; a branch without a tracking branch
yields NO_UPSTREAM before any count is computed. -/
def branch_status (st : GitState) (branch_name : String)
    (branch_to_compare_with : Option String) : Except GitError Status :=
  match branch_to_compare_with with
  | none =>
    match lookupBranch st branch_name with
    | none => Except.error (GitError.unknownBranch branch_name)
    | some b =>
      match b.tracking with
      | none => Except.ok Status.NO_UPSTREAM
      | some t => statusVs st branch_name t
  | some t => statusVs st branch_name t

/-- Result of a stateful operation: the state reached (which keeps the
mutations performed before a failure) together with the raised error, if
any. A none error component means the Python function returned normally. -/
abbrev GitResult := GitState × Option GitError

/-- Flag value FetchInfo.FAST_FORWARD of the gitpython backend. -/
def FETCH_FAST_FORWARD : Nat := 64

/-- Flag value PushInfo.FAST_FORWARD of the gitpython backend. -/
def PUSH_FAST_FORWARD : Nat := 256

/-- Flag value PushInfo.FORCED_UPDATE of the gitpython backend. -/
def PUSH_FORCED_UPDATE : Nat := 128

/-- Flag value PushInfo.NEW_HEAD of the gitpython backend. -/
def PUSH_NEW_HEAD : Nat := 2

/-- Outcome reported by the external git process for a pull or fetch of one
branch: the info flags and the branch state it produced. -/
structure PullOutcome where
  flags : Nat
  tip : Nat
  reach : Finset Nat
deriving DecidableEq

/-- Outcome reported by the external git process for a push. -/
structure PushOutcome where
  flags : Nat
deriving DecidableEq

/-- Outcome of an external git rebase: either a conflict (the code then runs
rebase --abort, restoring the previous state) or the rewritten history. -/
structure RebaseOutcome where
  conflict : Bool
  tip : Nat
  reach : Finset Nat
deriving DecidableEq

/-- Outcome of an external non-fast-forward git merge. -/
structure MergeOutcome where
  conflict : Bool
  tip : Nat
  reach : Finset Nat
deriving DecidableEq

/-- GitRepo.fetch_updates: fetches all remotes. Only remote-tracking refs are
updated, never local branches; the model state already holds the fetched
remote-tracking refs, so the visible effect is the logged command. -/
def fetch_updates (st : GitState) : GitState :=
  logEvent st Event.fetchAll

/-- GitRepo.reset_branch: moves the branch tip to the given reference. If the
branch is checked out, the index and working tree are also reset, which is
refused on a dirty working tree. -/
def reset_branch (st : GitState) (branch_name : String) (refTip : Nat)
    (refReach : Finset Nat) : GitResult :=
  match lookupBranch st branch_name with
  | none => (st, some (GitError.unknownBranch branch_name))
  | some _ =>
    if st.activeBranch = branch_name ∧ st.dirty = true then
      (st, some (GitError.dirtyReset branch_name))
    else
      (setBranchTip (logEvent st (Event.resetTo branch_name refTip))
        branch_name refTip refReach, none)

/-- GitRepo.pull_branch. Computes the branch status; on BEHIND performs the
pull (remote.pull when the branch is checked out, remote.fetch with a
branch:branch refspec otherwise) and then verifies the info flags and that
the local tip now equals the remote tip, raising on any other outcome; on
DIVERGED or NO_UPSTREAM raises according to the two error flags; otherwise
does nothing. -/
def pull_branch (st : GitState) (branch_name : String) (o : PullOutcome)
    (with_fetch : Bool) (error_on_missing_upstream : Bool)
    (error_on_diverged : Bool) : GitResult :=
  let st := if with_fetch then fetch_updates st else st
  match branch_status st branch_name none with
  | Except.error e => (st, some e)
  | Except.ok status =>
    if status = Status.BEHIND then
      match lookupBranch st branch_name with
      | none => (st, some (GitError.unknownBranch branch_name))
      | some b =>
        match b.tracking with
        | none => (st, some (GitError.unknownBranch branch_name))
        | some t =>
          match lookupRemote st t with
          | none => (st, some (GitError.unknownBranch t))
          | some rb =>
            if st.activeBranch = branch_name then
              let st := setBranchTip (logEvent st (Event.pull branch_name))
                branch_name o.tip o.reach
              if o.flags ≠ 0 ∨ o.tip ≠ rb.tip then
                (st, some (GitError.pullFailed branch_name))
              else (st, none)
            else
              let st := setBranchTip (logEvent st (Event.fetchBranch branch_name))
                branch_name o.tip o.reach
              if o.flags ≠ FETCH_FAST_FORWARD ∨ o.tip ≠ rb.tip then
                (st, some (GitError.fetchFailed branch_name))
              else (st, none)
    else if status = Status.DIVERGED ∧ error_on_diverged = true then
      (st, some (GitError.divergedPull branch_name))
    else if status = Status.NO_UPSTREAM ∧ error_on_missing_upstream = true then
      (st, some (GitError.noUpstreamPull branch_name))
    else (st, none)

/-- GitRepo.push_branch. AHEAD pushes and requires a fast-forward report;
DIVERGED force-pushes (requiring a forced-update report) when allowed and
fails otherwise; NO_UPSTREAM pushes with upstream setup and requires a
new-head report; UP_TO_DATE and BEHIND do nothing. The push command is
logged before its flags are checked, as the subprocess runs first. -/
def push_branch (st : GitState) (branch_name : String) (o : PushOutcome)
    (allow_force : Bool) (with_fetch : Bool) : GitResult :=
  let st := if with_fetch then fetch_updates st else st
  match branch_status st branch_name none with
  | Except.error e => (st, some e)
  | Except.ok status =>
    if status = Status.AHEAD then
      let st := logEvent st (Event.pushBranch branch_name false)
      if o.flags ≠ PUSH_FAST_FORWARD then (st, some (GitError.pushFailed branch_name))
      else (st, none)
    else if status = Status.DIVERGED then
      if allow_force then
        let st := logEvent st (Event.pushBranch branch_name true)
        if o.flags ≠ PUSH_FORCED_UPDATE then (st, some (GitError.pushFailed branch_name))
        else (st, none)
      else (st, some (GitError.divergedPush branch_name))
    else if status = Status.NO_UPSTREAM then
      let st := logEvent st (Event.pushBranch branch_name false)
      if o.flags ≠ PUSH_NEW_HEAD then (st, some (GitError.pushFailed branch_name))
      else (st, none)
    else (st, none)

/-- Resolution of the root_commit argument of GitRepo.new_branch: HEAD means
the checked-out branch tip, otherwise any branch reference. -/
def resolveCommit (st : GitState) (ref : String) : Option (Nat × Finset Nat) :=
  if ref = "HEAD" then
    match lookupBranch st st.activeBranch with
    | some b => some (b.tip, b.reach)
    | none => none
  else reachOfRef st ref

/-- Scan of the remotes loop of GitRepo.new_branch: the first remote carrying
a branch of the given name, with that remote branch, looked up in the given
remote-tracking refs. -/
def findTrackingRemote (rbs : List (String × RBranch)) (name : String) :
    List String → Option (String × RBranch)
  | [] => none
  | r :: rs =>
    match assocLookup rbs (r ++ "/" ++ name) with
    | some rb => some (r, rb)
    | none => findTrackingRemote rbs name rs

/-- GitRepo.new_branch. If the branch already exists the call is a no-op,
or an error when raise_error_if_exists is set. Otherwise the branch is
created at root_commit; then, if any remote carries a branch of the same
name, the new branch is moved to that remote branch commit and set to track
it. The remotes scan reads only remote-tracking refs, which branch creation
does not affect, so it is computed on the incoming state; the per-remote
fetches of the loop are not modelled. -/
def new_branch (st : GitState) (name : String) (root_commit : String)
    (raise_error_if_exists : Bool) : GitResult :=
  if (lookupBranch st name).isSome then
    if raise_error_if_exists then (st, some (GitError.branchExists name))
    else (st, none)
  else
    match resolveCommit st root_commit with
    | none => (st, some (GitError.unknownBranch root_commit))
    | some rc =>
      let tracked := findTrackingRemote st.remoteBranches name st.remotes
      let st1 := addBranch (logEvent st (Event.newHead name rc.1)) name
        { tip := rc.1, reach := rc.2, tracking := none }
      match tracked with
      | some (r, rb) =>
        (setBranchFull st1 name
          { tip := rb.tip, reach := rb.reach, tracking := some (r ++ "/" ++ name) }, none)
      | none => (st1, none)

/-- Effect of the switch_to_branch context manager around a history
operation: switching to an already-active branch is a no-op, otherwise the
branch must exist and the working tree must be clean; the initial branch is
restored on exit, so the net active branch is unchanged. -/
def switchForOp (st : GitState) (branch_name : String) : GitResult :=
  if branch_name = st.activeBranch then (st, none)
  else if (lookupBranch st branch_name).isNone then
    (st, some (GitError.unknownBranch branch_name))
  else if st.dirty then (st, some (GitError.dirtySwitch branch_name))
  else (st, none)

/-- GitRepo.rebase_branch: switch to the branch and run git rebase on the
given location; a conflict aborts the rebase (restoring the previous state)
and raises. The onto tip recorded in the log is the tip the location has at
call time. -/
def rebase_branch (st : GitState) (branch_name : String) (rebase_location : String)
    (o : RebaseOutcome) (with_fetch : Bool) : GitResult :=
  let st := if with_fetch then fetch_updates st else st
  match switchForOp st branch_name with
  | (st1, some e) => (st1, some e)
  | (st1, none) =>
    match reachOfRef st1 rebase_location with
    | none => (st1, some (GitError.unknownBranch rebase_location))
    | some loc =>
      if o.conflict then (st1, some (GitError.rebaseConflict branch_name))
      else
        (setBranchTip (logEvent st1 (Event.rebaseOnto branch_name loc.1))
          branch_name o.tip o.reach, none)

/-- GitRepo.merge_branch: when the branch is exactly BEHIND the branch to
merge, a fast-forward is done as a reset; if that reset raises, the error is
swallowed and the code falls back on a plain git merge (under
switch_to_branch), which aborts and raises on conflict. -/
def merge_branch (st : GitState) (branch_name : String) (branch_to_merge : String)
    (o : MergeOutcome) : GitResult :=
  match branch_status st branch_name (some branch_to_merge) with
  | Except.error e => (st, some e)
  | Except.ok status =>
    let fallback : GitResult :=
      match switchForOp st branch_name with
      | (st1, some e) => (st1, some e)
      | (st1, none) =>
        if o.conflict then (st1, some (GitError.mergeConflict branch_name))
        else
          (setBranchTip (logEvent st1 (Event.mergeInto branch_name branch_to_merge))
            branch_name o.tip o.reach, none)
    if status = Status.BEHIND then
      match reachOfRef st branch_to_merge with
      | none => (st, some (GitError.unknownBranch branch_to_merge))
      | some mr =>
        match reset_branch st branch_name mr.1 mr.2 with
        | (st1, none) => (st1, none)
        | (_, some _) => fallback
    else fallback

/-- pull_or_reset_to_upstream of sb/workflows/update_repo.py. UP_TO_DATE and
AHEAD are no-ops. Otherwise the tracking branch is retrieved; the bare
Python assert on it failing is an AssertionError. On DIVERGED with the
INTERACTIVE policy the confirmation dialog answer (an external collaborator
input, always YES or NO) replaces the policy. A BEHIND branch, or a denied
reset, goes through pull_branch with its default error flags, so that a
denied divergence surfaces as an error; an allowed reset moves the branch to
the tracking branch commit. -/
def pull_or_reset_to_upstream (branch_name : String) (st : GitState)
    (allow_reset : UserAnswer) (dialog_answer : UserAnswer) (o : PullOutcome) :
    GitResult :=
  match branch_status st branch_name none with
  | Except.error e => (st, some e)
  | Except.ok status =>
    if status = Status.UP_TO_DATE ∨ status = Status.AHEAD then (st, none)
    else
      match lookupBranch st branch_name with
      | none => (st, some (GitError.unknownBranch branch_name))
      | some b =>
        match b.tracking with
        | none => (st, some GitError.assertionFailed)
        | some t =>
          match lookupRemote st t with
          | none => (st, some (GitError.unknownBranch t))
          | some rb =>
            let allow_reset :=
              if status = Status.DIVERGED ∧ allow_reset = UserAnswer.INTERACTIVE then
                dialog_answer
              else allow_reset
            if status = Status.BEHIND ∨ allow_reset = UserAnswer.NO then
              pull_branch st branch_name o false true true
            else reset_branch st branch_name rb.tip rb.reach

/-- Values occurring in the Python tuple-membership test of
update_from_easybuild_upstream: enum members and booleans. -/
inductive PyVal
  | status (s : Status)
  | bool (b : Bool)
deriving DecidableEq

/-- Python equality between such values: enum members compare by identity
and never equal a boolean. -/
def pyEq : PyVal → PyVal → Bool
  | PyVal.status a, PyVal.status b => decide (a = b)
  | PyVal.bool a, PyVal.bool b => a == b
  | _, _ => false

/-- Python tuple membership (the in operator) over such values. -/
def pyIn (x : PyVal) : List PyVal → Bool
  | [] => false
  | y :: ys => pyEq x y || pyIn x ys

/-- The guard written in the source as
status in (Status.DIVERGED, status is Status.AHEAD):
a tuple whose second element is the boolean status is Status.AHEAD, tested
with Python membership. -/
def ebInvariantGuard (status : Status) : Bool :=
  pyIn (PyVal.status status)
    [PyVal.status Status.DIVERGED, PyVal.bool (decide (status = Status.AHEAD))]

/-- Oracles for the external git outcomes used by one branch update of
update_from_easybuild_upstream. -/
structure EbOracles where
  pull : PullOutcome
  merge : MergeOutcome
  push : PushOutcome
deriving DecidableEq

/-- Body of the per-branch loop of update_from_easybuild_upstream: compares
the default-remote copy of the branch with the official EasyBuild remote
copy. UP_TO_DATE skips; BEHIND brings the local branch up to date (creating
a scratch branch, deleted afterwards, when no local branch exists), merges
the official branch in and pushes; the next guard is the literal translation
of the source condition status in (Status.DIVERGED, status is Status.AHEAD),
and any remaining case falls through with no action. -/
def update_from_easybuild_upstream_branch (st : GitState) (branch_name : String)
    (ebRemote : String) (oc : EbOracles) : GitResult :=
  let sib_branch := st.defaultRemote ++ "/" ++ branch_name
  let eb_branch := ebRemote ++ "/" ++ branch_name
  match branch_status st sib_branch (some eb_branch) with
  | Except.error e => (st, some e)
  | Except.ok status =>
    if status = Status.UP_TO_DATE then (st, none)
    else if status = Status.BEHIND then
      let prep : GitResult × Bool :=
        if (lookupBranch st branch_name).isSome then
          (match branch_status st branch_name none with
           | Except.error e => ((st, some e))
           | Except.ok s =>
             if ¬ (s = Status.UP_TO_DATE) then
               pull_branch st branch_name oc.pull true true true
             else (st, none), false)
        else (new_branch st branch_name "HEAD" false, true)
      match prep.1 with
      | (st1, some e) => (st1, some e)
      | (st1, none) =>
        let res : GitResult :=
          match merge_branch st1 branch_name eb_branch oc.merge with
          | (st2, some e) => (st2, some e)
          | (st2, none) => push_branch st2 branch_name oc.push false false
        if prep.2 then (deleteBranch res.1 branch_name, res.2) else res
    else if ebInvariantGuard status then
      (st, some (GitError.invariantViolation sib_branch))
    else (st, none)

/-- The stack-builder configuration fields consumed by update_local_repo. -/
structure SBConfig where
  node_branch : String
  allow_reset_node_branch : UserAnswer
  other_node_branches : List String
  allow_reset_other_nodes_branch : UserAnswer
deriving DecidableEq

/-- Oracles for the external git outcomes used by update_local_repo. -/
structure UpdateOracles where
  pushNew : PushOutcome
  pullMain : PullOutcome
  pullNode : PullOutcome
  dialogNode : UserAnswer
  nodeMerge : MergeOutcome
  nodeRebase : RebaseOutcome
  pushIntegrate : PushOutcome
  peerPull : String → PullOutcome
  peerDialog : String → UserAnswer

/-- First block of update_local_repo: if the node branch does not exist
locally it is created rooted at the main branch; when no same-named remote
branch exists, it is pushed immediately to create its remote counterpart. -/
def ensure_node_branch (st : GitState) (cfg : SBConfig) (o : UpdateOracles) :
    GitResult :=
  if (lookupBranch st cfg.node_branch).isNone then
    match new_branch st cfg.node_branch st.mainBranch false with
    | (st1, some e) => (st1, some e)
    | (st1, none) =>
      let remote_node := st.defaultRemote ++ "/" ++ cfg.node_branch
      if (lookupRemote st1 remote_node).isSome then (st1, none)
      else push_branch st1 cfg.node_branch o.pushNew false false
  else (st, none)

/-- Integration block of update_local_repo: the node branch against the main
branch. BEHIND merges main in (a fast-forward) and pushes without force;
DIVERGED requires a clean tree, rebases the node branch on main and pushes
with force allowed; any other relation does nothing. -/
def integrate_node (st : GitState) (cfg : SBConfig) (o : UpdateOracles) :
    GitResult :=
  match branch_status st cfg.node_branch (some st.mainBranch) with
  | Except.error e => (st, some e)
  | Except.ok status =>
    if status = Status.BEHIND then
      match merge_branch st cfg.node_branch st.mainBranch o.nodeMerge with
      | (st1, some e) => (st1, some e)
      | (st1, none) => push_branch st1 cfg.node_branch o.pushIntegrate false false
    else if status = Status.DIVERGED then
      if st.dirty then (st, some GitError.dirtyRepoRebase)
      else
        match rebase_branch st cfg.node_branch st.mainBranch o.nodeRebase false with
        | (st1, some e) => (st1, some e)
        | (st1, none) => push_branch st1 cfg.node_branch o.pushIntegrate true false
    else (st, none)

/-- Peer-branch loop of update_local_repo: each remaining node branch that
exists locally is reconciled with the peer policy; a raised error stops the
loop, as the Python exception propagates. -/
def peersGo (st : GitState) (branches : List String) (allow : UserAnswer)
    (opull : String → PullOutcome) (odialog : String → UserAnswer) : GitResult :=
  match branches with
  | [] => (st, none)
  | b :: bs =>
    match pull_or_reset_to_upstream b st allow (odialog b) (opull b) with
    | (st1, some e) => (st1, some e)
    | (st1, none) => peersGo st1 bs allow opull odialog

/-- update_local_repo of sb/workflows/update_repo.py: ensure the node branch
exists, fetch once, reconcile the main branch (policy NO) then the node
branch (configured policy) against their upstreams, integrate the node
branch with the main branch, and finally update the locally-present peer
node branches. -/
def update_local_repo (st : GitState) (cfg : SBConfig) (o : UpdateOracles) :
    GitResult :=
  match ensure_node_branch st cfg o with
  | (st1, some e) => (st1, some e)
  | (st1, none) =>
    let st2 := fetch_updates st1
    match pull_or_reset_to_upstream st2.mainBranch st2 UserAnswer.NO UserAnswer.NO
        o.pullMain with
    | (st3, some e) => (st3, some e)
    | (st3, none) =>
      match pull_or_reset_to_upstream cfg.node_branch st3
          cfg.allow_reset_node_branch o.dialogNode o.pullNode with
      | (st4, some e) => (st4, some e)
      | (st4, none) =>
        match integrate_node st4 cfg o with
        | (st5, some e) => (st5, some e)
        | (st5, none) =>
          peersGo st5
            (cfg.other_node_branches.filter
              (fun b => (lookupBranch st5 b).isSome))
            cfg.allow_reset_other_nodes_branch o.peerPull o.peerDialog

/-- Concrete repository used by the classification witness: one local branch
without tracking information and one remote-tracking branch. -/
def w1St : GitState :=
  { branches := [("alpha", ⟨2, {0, 2}, none⟩)]
    remoteBranches := [("origin/beta", ⟨3, {0, 3}⟩)]
    remotes := ["origin"]
    activeBranch := "alpha"
    dirty := false
    mainBranch := "alpha"
    defaultRemote := "origin"
    log := [] }

/-- Concrete repository used by the symmetry witness: two local branches with
overlapping histories. -/
def w9St : GitState :=
  { branches := [("develop", ⟨4, {0, 1, 4}, none⟩), ("hug", ⟨7, {0, 1, 7}, none⟩)]
    remoteBranches := []
    remotes := ["origin"]
    activeBranch := "develop"
    dirty := false
    mainBranch := "develop"
    defaultRemote := "origin"
    log := [] }

/-- Oracle reporting clean zero flags and an empty history; used by runs that
never reach the external pull. -/
def oZero : PullOutcome :=
  { flags := 0, tip := 0, reach := ∅ }

/-- Concrete repository whose branch hug has diverged from origin/hug. -/
def c3St : GitState :=
  { branches := [("hug", ⟨4, {0, 4}, some "origin/hug"⟩)]
    remoteBranches := [("origin/hug", ⟨6, {0, 6}⟩)]
    remotes := ["origin"]
    activeBranch := "hug"
    dirty := false
    mainBranch := "develop"
    defaultRemote := "origin"
    log := [] }

/-- Concrete repository whose branch ibu has diverged from origin/ibu. -/
def c5St : GitState :=
  { branches := [("ibu", ⟨4, {0, 4}, some "origin/ibu"⟩)]
    remoteBranches := [("origin/ibu", ⟨6, {0, 6}⟩)]
    remotes := ["origin"]
    activeBranch := "ibu"
    dirty := false
    mainBranch := "develop"
    defaultRemote := "origin"
    log := [] }

/-- Concrete repository whose branch scicore has no tracking branch. -/
def c6St : GitState :=
  { branches := [("scicore", ⟨2, {0, 2}, none⟩)]
    remoteBranches := []
    remotes := ["origin"]
    activeBranch := "scicore"
    dirty := false
    mainBranch := "develop"
    defaultRemote := "origin"
    log := [] }

/-- Concrete repository whose branch vitalit has no tracking branch. -/
def c6bSt : GitState :=
  { branches := [("vitalit", ⟨3, {3}, none⟩)]
    remoteBranches := []
    remotes := ["origin"]
    activeBranch := "vitalit"
    dirty := false
    mainBranch := "develop"
    defaultRemote := "origin"
    log := [] }

/-- Concrete repository whose branch ube is behind origin/ube, used for the
pull postcondition witness. -/
def c10St : GitState :=
  { branches := [("ube", ⟨1, {0, 1}, some "origin/ube"⟩)]
    remoteBranches := [("origin/ube", ⟨5, {0, 1, 5}⟩)]
    remotes := ["origin"]
    activeBranch := "ube"
    dirty := false
    mainBranch := "develop"
    defaultRemote := "origin"
    log := [] }

/-- Concrete repository for the mirror updater where the default-remote copy
of develop is one commit AHEAD of the official EasyBuild copy. -/
def c2St : GitState :=
  { branches := []
    remoteBranches :=
      [("origin/develop", ⟨11, {0, 1, 11}⟩), ("eb-source/develop", ⟨1, {0, 1}⟩)]
    remotes := ["origin", "eb-source"]
    activeBranch := "develop"
    dirty := false
    mainBranch := "develop"
    defaultRemote := "origin"
    log := [] }

/-- Concrete repository for the mirror updater where the default-remote copy
of develop has DIVERGED from the official EasyBuild copy. -/
def c2StD : GitState :=
  { branches := []
    remoteBranches :=
      [("origin/develop", ⟨11, {0, 11}⟩), ("eb-source/develop", ⟨12, {0, 12}⟩)]
    remotes := ["origin", "eb-source"]
    activeBranch := "develop"
    dirty := false
    mainBranch := "develop"
    defaultRemote := "origin"
    log := [] }

/-- Oracles for the mirror updater runs; never consulted on the skipped
paths. -/
def c2Oc : EbOracles :=
  { pull := oZero, merge := ⟨false, 0, ∅⟩, push := ⟨0⟩ }

/-- Concrete repository where branch hug does not exist locally but
origin/hug does, with a tip different from the develop root. -/
def c8St : GitState :=
  { branches := [("develop", ⟨3, {0, 3}, none⟩)]
    remoteBranches := [("origin/hug", ⟨5, {0, 5}⟩)]
    remotes := ["origin"]
    activeBranch := "develop"
    dirty := false
    mainBranch := "develop"
    defaultRemote := "origin"
    log := [] }

/-- Configuration whose node branch is hug, with no peer branches. -/
def cfg7 : SBConfig :=
  { node_branch := "hug"
    allow_reset_node_branch := UserAnswer.INTERACTIVE
    other_node_branches := []
    allow_reset_other_nodes_branch := UserAnswer.INTERACTIVE }

/-- Oracles for the integration witnesses: a conflict-free rebase producing
tip 9 and otherwise inert outcomes. -/
def o7 : UpdateOracles :=
  { pushNew := ⟨0⟩
    pullMain := oZero
    pullNode := oZero
    dialogNode := UserAnswer.NO
    nodeMerge := ⟨false, 0, ∅⟩
    nodeRebase := ⟨false, 9, {0, 3, 9}⟩
    pushIntegrate := ⟨0⟩
    peerPull := fun _ => oZero
    peerDialog := fun _ => UserAnswer.NO }

/-- Concrete repository whose node branch hug is UP_TO_DATE with develop. -/
def w7a : GitState :=
  { branches := [("develop", ⟨3, {0, 3}, none⟩), ("hug", ⟨3, {0, 3}, none⟩)]
    remoteBranches := []
    remotes := ["origin"]
    activeBranch := "develop"
    dirty := false
    mainBranch := "develop"
    defaultRemote := "origin"
    log := [] }

/-- Concrete repository whose node branch hug is BEHIND develop. -/
def w7b : GitState :=
  { branches := [("develop", ⟨3, {0, 3}, none⟩), ("hug", ⟨0, {0}, none⟩)]
    remoteBranches := []
    remotes := ["origin"]
    activeBranch := "develop"
    dirty := false
    mainBranch := "develop"
    defaultRemote := "origin"
    log := [] }

/-- Concrete repository whose node branch hug has DIVERGED from develop and
is checked out on a clean tree. -/
def w7c : GitState :=
  { branches := [("develop", ⟨3, {0, 3}, none⟩), ("hug", ⟨4, {0, 4}, some "origin/hug"⟩)]
    remoteBranches := [("origin/hug", ⟨4, {0, 4}⟩)]
    remotes := ["origin"]
    activeBranch := "hug"
    dirty := false
    mainBranch := "develop"
    defaultRemote := "origin"
    log := [] }

/-- Configuration for the full-run witness: node branch hug, one peer. -/
def cfg4 : SBConfig :=
  { node_branch := "hug"
    allow_reset_node_branch := UserAnswer.INTERACTIVE
    other_node_branches := ["ibu"]
    allow_reset_other_nodes_branch := UserAnswer.INTERACTIVE }

/-- Oracles for the full-run witness: a clean fast-forward fetch of main and
a conflict-free rebase producing tip 9. -/
def o4 : UpdateOracles :=
  { pushNew := ⟨0⟩
    pullMain := ⟨64, 5, {0, 3, 5}⟩
    pullNode := oZero
    dialogNode := UserAnswer.NO
    nodeMerge := ⟨false, 0, ∅⟩
    nodeRebase := ⟨false, 9, {0, 3, 5, 9}⟩
    pushIntegrate := ⟨0⟩
    peerPull := fun _ => oZero
    peerDialog := fun _ => UserAnswer.NO }

/-- Concrete repository for the full-run witness: develop is behind
origin/develop, hug is up to date with origin/hug and has diverged from the
incoming develop history, and hug is checked out on a clean tree. -/
def w4St : GitState :=
  { branches := [("develop", ⟨3, {0, 3}, some "origin/develop"⟩),
      ("hug", ⟨4, {0, 4}, some "origin/hug"⟩)]
    remoteBranches := [("origin/develop", ⟨5, {0, 3, 5}⟩), ("origin/hug", ⟨4, {0, 4}⟩)]
    remotes := ["origin"]
    activeBranch := "hug"
    dirty := false
    mainBranch := "develop"
    defaultRemote := "origin"
    log := [] }

theorem branches_logEvent (st : GitState) (e : Event) :
    (logEvent st e).branches = st.branches := rfl

theorem lookupBranch_logEvent (st : GitState) (e : Event) (n : String) :
    lookupBranch (logEvent st e) n = lookupBranch st n := rfl

theorem lookupRemote_logEvent (st : GitState) (e : Event) (n : String) :
    lookupRemote (logEvent st e) n = lookupRemote st n := rfl

theorem reachOfRef_logEvent (st : GitState) (e : Event) (n : String) :
    reachOfRef (logEvent st e) n = reachOfRef st n := rfl

theorem branch_status_logEvent (st : GitState) (e : Event) (n : String)
    (c : Option String) : branch_status (logEvent st e) n c = branch_status st n c := rfl

/-- Lookup through the entry update underlying setBranchTip. -/
theorem assocLookup_setEntryTip (l : List (String × LBranch)) (n : String) (t : Nat)
    (r : Finset Nat) (m : String) :
    assocLookup (setEntryTip l n t r) m
      = if m = n then (assocLookup l m).map (fun b => { b with tip := t, reach := r })
        else assocLookup l m := by
  induction l with
  | nil => simp only [setEntryTip, assocLookup]; split <;> rfl
  | cons hd tl ih =>
    obtain ⟨k, v⟩ := hd
    by_cases h1 : k = n
    · subst h1
      by_cases h2 : k = m
      · subst h2
        simp [setEntryTip, assocLookup]
      · have h2s : ¬ (m = k) := fun h => h2 h.symm
        simp [setEntryTip, assocLookup, h2, h2s, ih]
    · by_cases h2 : k = m
      · subst h2
        have h1s : ¬ (k = n) := h1
        simp [setEntryTip, assocLookup, h1s, ih]
      · have h2s : ¬ (m = k) := fun h => h2 h.symm
        simp [setEntryTip, assocLookup, h1, h2, ih]

/-- Lookup through the entry replacement underlying setBranchFull. -/
theorem assocLookup_setEntryFull (l : List (String × LBranch)) (n : String)
    (b : LBranch) (m : String) :
    assocLookup (setEntryFull l n b) m
      = if m = n then (assocLookup l m).map (fun _ => b) else assocLookup l m := by
  induction l with
  | nil => simp only [setEntryFull, assocLookup]; split <;> rfl
  | cons hd tl ih =>
    obtain ⟨k, v⟩ := hd
    by_cases h1 : k = n
    · subst h1
      by_cases h2 : k = m
      · subst h2
        simp [setEntryFull, assocLookup]
      · have h2s : ¬ (m = k) := fun h => h2 h.symm
        simp [setEntryFull, assocLookup, h2, h2s, ih]
    · by_cases h2 : k = m
      · subst h2
        have h1s : ¬ (k = n) := h1
        simp [setEntryFull, assocLookup, h1s, ih]
      · have h2s : ¬ (m = k) := fun h => h2 h.symm
        simp [setEntryFull, assocLookup, h1, h2, ih]

/-- Lookup of an appended fresh entry. -/
theorem assocLookup_append_fresh (l : List (String × LBranch)) (n : String)
    (b : LBranch) (h : assocLookup l n = none) :
    assocLookup (l ++ [(n, b)]) n = some b := by
  induction l with
  | nil => simp [assocLookup]
  | cons hd tl ih =>
    obtain ⟨k, v⟩ := hd
    by_cases h1 : k = n
    · simp [assocLookup, h1] at h
    · simp only [assocLookup, List.cons_append, if_neg h1] at h ⊢
      exact ih h

theorem lookupBranch_setBranchTip (st : GitState) (n : String) (t : Nat)
    (r : Finset Nat) (m : String) :
    lookupBranch (setBranchTip st n t r) m =
      if m = n then (lookupBranch st m).map (fun b => { b with tip := t, reach := r })
      else lookupBranch st m := by
  simp only [lookupBranch, setBranchTip]
  exact assocLookup_setEntryTip st.branches n t r m

theorem lookupRemote_setBranchTip (st : GitState) (n : String) (t : Nat)
    (r : Finset Nat) (m : String) :
    lookupRemote (setBranchTip st n t r) m = lookupRemote st m := rfl

/-- The four rows of the (ahead, behind) classification table of §4.2, as
satisfied by the if-chain of branch_status. -/
theorem statusOfCounts_spec (x y : Nat) :
    (statusOfCounts x y = Status.UP_TO_DATE ↔ x = 0 ∧ y = 0)
    ∧ (statusOfCounts x y = Status.AHEAD ↔ 0 < x ∧ y = 0)
    ∧ (statusOfCounts x y = Status.BEHIND ↔ x = 0 ∧ 0 < y)
    ∧ (statusOfCounts x y = Status.DIVERGED ↔ 0 < x ∧ 0 < y) := by
  unfold statusOfCounts
  split_ifs with h1 h2 h3 <;>
    refine ⟨?_, ?_, ?_, ?_⟩ <;> simp_all <;> omega

/-- C1. For comparable references the returned relation is exactly the one
determined by the (ahead, behind) reachability counts, following the table
UP_TO_DATE iff both zero, AHEAD iff ahead positive and behind zero, BEHIND
iff ahead zero and behind positive, DIVERGED iff both positive; and a branch
without tracking branch, compared with no explicit target, yields
NO_UPSTREAM with no count entering the result. -/
theorem C1_branch_status_classification (st : GitState) (a b : String)
    (pa pb : Nat × Finset Nat)
    (ha : reachOfRef st a = some pa) (hb : reachOfRef st b = some pb) :
    branch_status st a (some b) =
      Except.ok (statusOfCounts ((pa.2 \ pb.2).card) ((pb.2 \ pa.2).card))
    ∧ (∀ x y : Nat,
        (statusOfCounts x y = Status.UP_TO_DATE ↔ x = 0 ∧ y = 0)
        ∧ (statusOfCounts x y = Status.AHEAD ↔ 0 < x ∧ y = 0)
        ∧ (statusOfCounts x y = Status.BEHIND ↔ x = 0 ∧ 0 < y)
        ∧ (statusOfCounts x y = Status.DIVERGED ↔ 0 < x ∧ 0 < y))
    ∧ (∀ (n : String) (b2 : LBranch), lookupBranch st n = some b2 →
        b2.tracking = none → branch_status st n none = Except.ok Status.NO_UPSTREAM) := by
  refine ⟨?_, fun x y => statusOfCounts_spec x y, ?_⟩
  · simp [branch_status, statusVs, ha, hb]
  · intro n b2 h1 h2
    simp [branch_status, h1, h2]

/-- Witness for C1 on a concrete repository: the relation of alpha against
origin/beta is DIVERGED, matching the counts (1, 1), and a branch without a
tracking branch reports NO_UPSTREAM. -/
theorem C1_branch_status_classification_witness :
    branch_status w1St "alpha" (some "origin/beta") = Except.ok Status.DIVERGED
    ∧ branch_status w1St "alpha" none = Except.ok Status.NO_UPSTREAM := by
  have h := C1_branch_status_classification w1St "alpha" "origin/beta"
    (2, {0, 2}) (3, {0, 3}) (by decide) (by decide)
  refine ⟨?_, h.2.2 "alpha" ⟨2, {0, 2}, none⟩ (by decide) (by decide)⟩
  have h1 := h.1
  have : statusOfCounts ((({0, 2} : Finset Nat) \ {0, 3}).card)
      ((({0, 3} : Finset Nat) \ {0, 2}).card) = Status.DIVERGED := by decide
  rw [this] at h1
  exact h1

/-- C9. Swapping the two compared references swaps the AHEAD and BEHIND
relations and preserves DIVERGED and UP_TO_DATE, because the rev-list
left-right counts swap with the arguments. -/
theorem C9_branch_status_swap (st : GitState) (a b : String) (pa pb : Nat × Finset Nat)
    (ha : reachOfRef st a = some pa) (hb : reachOfRef st b = some pb) :
    (branch_status st a (some b) = Except.ok Status.AHEAD ↔
      branch_status st b (some a) = Except.ok Status.BEHIND)
    ∧ (branch_status st a (some b) = Except.ok Status.DIVERGED ↔
      branch_status st b (some a) = Except.ok Status.DIVERGED)
    ∧ (branch_status st a (some b) = Except.ok Status.UP_TO_DATE ↔
      branch_status st b (some a) = Except.ok Status.UP_TO_DATE) := by
  simp only [branch_status, statusVs, ha, hb]
  by_cases hx : (pa.2 \ pb.2).card = 0 <;> by_cases hy : (pb.2 \ pa.2).card = 0 <;>
    simp [statusOfCounts, hx, hy]

/-- Witness for C9 on a concrete repository where develop is AHEAD of hug in
one direction and BEHIND in the other... here the two branches carry one
distinct commit each, so both directions report DIVERGED. -/
theorem C9_branch_status_swap_witness :
    (branch_status w9St "develop" (some "hug") = Except.ok Status.DIVERGED ↔
      branch_status w9St "hug" (some "develop") = Except.ok Status.DIVERGED)
    ∧ branch_status w9St "develop" (some "hug") = Except.ok Status.DIVERGED := by
  refine ⟨(C9_branch_status_swap w9St "develop" "hug" (4, {0, 1, 4}) (7, {0, 1, 7})
    (by decide) (by decide)).2.1, by decide⟩

/-- Status of a tracked branch computed from the two difference counts of its
history against the tracking branch. -/
theorem branch_status_tracked (st : GitState) (n t : String) (b : LBranch)
    (rb : RBranch) (hb : lookupBranch st n = some b) (ht : b.tracking = some t)
    (hlt : lookupBranch st t = none) (hrt : lookupRemote st t = some rb) :
    branch_status st n none =
      Except.ok (statusOfCounts ((b.reach \ rb.reach).card) ((rb.reach \ b.reach).card)) := by
  simp [branch_status, statusVs, reachOfRef, hb, ht, hlt, hrt]

/-- Behaviour of pull_branch on a branch that is BEHIND its tracking branch:
the pull (or branch-targeted fetch) runs, the branch is set to the
oracle-reported history, and an error is raised unless the git process
reported the expected clean flags and the resulting tip equals the remote
tip. -/
theorem pull_branch_behind (st : GitState) (n t : String) (b : LBranch)
    (rb : RBranch) (o : PullOutcome) (wf eu ed : Bool)
    (hb : lookupBranch st n = some b) (ht : b.tracking = some t)
    (hlt : lookupBranch st t = none) (hrt : lookupRemote st t = some rb)
    (hA : (b.reach \ rb.reach).card = 0) (hB : (rb.reach \ b.reach).card ≠ 0) :
    pull_branch st n o wf eu ed =
      (setBranchTip
        (logEvent (if wf then fetch_updates st else st)
          (if st.activeBranch = n then Event.pull n else Event.fetchBranch n))
        n o.tip o.reach,
       if o.flags ≠ (if st.activeBranch = n then 0 else FETCH_FAST_FORWARD)
           ∨ o.tip ≠ rb.tip then
         some (if st.activeBranch = n then GitError.pullFailed n else GitError.fetchFailed n)
       else none) := by
  have hb2 : assocLookup st.branches n = some b := hb
  have hlt2 : assocLookup st.branches t = none := hlt
  have hrt2 : assocLookup st.remoteBranches t = some rb := hrt
  cases wf <;> by_cases hact : st.activeBranch = n <;>
    simp [pull_branch, fetch_updates, logEvent, branch_status, statusVs, reachOfRef,
      statusOfCounts, lookupBranch, lookupRemote, setBranchTip, hb2, ht, hlt2, hrt2,
      hA, hB, hact] <;>
    split <;> rfl

/-- C5. A DIVERGED branch reconciled under the DENY policy (allow_reset NO)
raises the diverged-pull error and the state, including the branch tip and
the command log, is exactly the input state: nothing was mutated when the
error was raised. -/
theorem C5_deny_diverged_fails_untouched (st : GitState) (n t : String) (b : LBranch)
    (rb : RBranch) (d : UserAnswer) (o : PullOutcome)
    (hb : lookupBranch st n = some b) (ht : b.tracking = some t)
    (hlt : lookupBranch st t = none) (hrt : lookupRemote st t = some rb)
    (hA : (b.reach \ rb.reach).card ≠ 0) (hB : (rb.reach \ b.reach).card ≠ 0) :
    pull_or_reset_to_upstream n st UserAnswer.NO d o =
      (st, some (GitError.divergedPull n)) := by
  have hst : branch_status st n none = Except.ok Status.DIVERGED := by
    rw [branch_status_tracked st n t b rb hb ht hlt hrt]
    simp [statusOfCounts, hA, hB]
  simp [pull_or_reset_to_upstream, pull_branch, hst, hb, ht, hrt]

/-- Witness for C5 on a concrete diverged repository. -/
theorem C5_deny_diverged_fails_untouched_witness :
    pull_or_reset_to_upstream "ibu" c5St UserAnswer.NO UserAnswer.YES oZero =
      (c5St, some (GitError.divergedPull "ibu")) := by
  exact C5_deny_diverged_fails_untouched c5St "ibu" "origin/ibu"
    ⟨4, {0, 4}, some "origin/ibu"⟩ ⟨6, {0, 6}⟩ UserAnswer.YES oZero
    (by decide) (by decide) (by decide) (by decide) (by decide) (by decide)

/-- Refutation for C3. On a concrete repository whose branch hug has diverged
from its upstream, reconciling with the ASK policy and a negative answer
leaves the state untouched but raises the diverged-pull error: the claim
that no error is raised is false, since the denied reset falls back on a
plain pull whose divergence check raises. -/
theorem C3_ask_no_counterexample :
    branch_status c3St "hug" none = Except.ok Status.DIVERGED
    ∧ pull_or_reset_to_upstream "hug" c3St UserAnswer.INTERACTIVE UserAnswer.NO oZero
      = (c3St, some (GitError.divergedPull "hug")) := by
  exact ⟨by decide, by decide⟩

/-- C3 as amended. A DIVERGED branch reconciled under the ASK policy with a
negative user answer leaves the branch tip and the whole state untouched,
and raises the diverged-pull error. -/
theorem C3_ask_no_untouched_but_raises (st : GitState) (n t : String) (b : LBranch)
    (rb : RBranch) (o : PullOutcome)
    (hb : lookupBranch st n = some b) (ht : b.tracking = some t)
    (hlt : lookupBranch st t = none) (hrt : lookupRemote st t = some rb)
    (hA : (b.reach \ rb.reach).card ≠ 0) (hB : (rb.reach \ b.reach).card ≠ 0) :
    pull_or_reset_to_upstream n st UserAnswer.INTERACTIVE UserAnswer.NO o =
      (st, some (GitError.divergedPull n)) := by
  have hst : branch_status st n none = Except.ok Status.DIVERGED := by
    rw [branch_status_tracked st n t b rb hb ht hlt hrt]
    simp [statusOfCounts, hA, hB]
  simp [pull_or_reset_to_upstream, pull_branch, hst, hb, ht, hrt]

/-- Witness for the amended C3 on a concrete diverged repository. -/
theorem C3_ask_no_untouched_but_raises_witness :
    pull_or_reset_to_upstream "hug" c3St UserAnswer.INTERACTIVE UserAnswer.NO oZero =
      (c3St, some (GitError.divergedPull "hug")) := by
  exact C3_ask_no_untouched_but_raises c3St "hug" "origin/hug"
    ⟨4, {0, 4}, some "origin/hug"⟩ ⟨6, {0, 6}⟩ oZero
    (by decide) (by decide) (by decide) (by decide) (by decide) (by decide)

/-- Refutation for C6. On a concrete repository whose branch scicore has no
tracking branch, pull_or_reset_to_upstream fails with the assertion error
even though its caller expressed no requirement for an upstream to exist
(there is no such parameter): the reconciliation is not a no-op on
NO_UPSTREAM, so only the inner pull_branch matches the claim. -/
theorem C6_no_upstream_counterexample :
    branch_status c6St "scicore" none = Except.ok Status.NO_UPSTREAM
    ∧ pull_or_reset_to_upstream "scicore" c6St UserAnswer.YES UserAnswer.YES oZero
      = (c6St, some GitError.assertionFailed) := by
  exact ⟨by decide, by decide⟩

/-- C6 as amended. pull_branch on a branch without tracking branch raises the
no-upstream error exactly when the caller set error_on_missing_upstream, and
otherwise returns normally with no mutation beyond the optional fetch of
remote-tracking refs; pull_or_reset_to_upstream itself, by contrast, always
fails on such a branch (see the counterexample). -/
theorem C6_pull_branch_no_upstream (st : GitState) (n : String) (b : LBranch)
    (o : PullOutcome) (wf em ed : Bool)
    (hb : lookupBranch st n = some b) (ht : b.tracking = none) :
    pull_branch st n o wf em ed =
      (if wf then fetch_updates st else st,
       if em then some (GitError.noUpstreamPull n) else none) := by
  have hst : branch_status st n none = Except.ok Status.NO_UPSTREAM := by
    simp [branch_status, hb, ht]
  cases wf <;> cases em <;>
    simp [pull_branch, fetch_updates, branch_status_logEvent, hst]

/-- Witness for the amended C6: with the flag set the call fails, without it
the call is a no-op returning no error. -/
theorem C6_pull_branch_no_upstream_witness :
    pull_branch c6bSt "vitalit" oZero false true true
      = (c6bSt, some (GitError.noUpstreamPull "vitalit"))
    ∧ pull_branch c6bSt "vitalit" oZero false false true = (c6bSt, none) := by
  constructor
  · have h := C6_pull_branch_no_upstream c6bSt "vitalit" ⟨3, {3}, none⟩ oZero
      false true true (by decide) (by decide)
    simpa using h
  · have h := C6_pull_branch_no_upstream c6bSt "vitalit" ⟨3, {3}, none⟩ oZero
      false false true (by decide) (by decide)
    simpa using h

/-- C10. When pull_branch returns without error on a branch BEHIND its
tracking branch, the branch tip now equals the remote tracking tip: the
implementation checks the reported flags and compares the two tips after the
pull, raising when they differ, so in particular a tip mismatch reported by
the git process always surfaces as an error. -/
theorem C10_pull_postcondition (st : GitState) (n t : String) (b : LBranch)
    (rb : RBranch) (o : PullOutcome) (wf eu ed : Bool)
    (hb : lookupBranch st n = some b) (ht : b.tracking = some t)
    (hlt : lookupBranch st t = none) (hrt : lookupRemote st t = some rb)
    (hA : (b.reach \ rb.reach).card = 0) (hB : (rb.reach \ b.reach).card ≠ 0) :
    (∀ st2, pull_branch st n o wf eu ed = (st2, none) →
       o.tip = rb.tip ∧ ∃ b2, lookupBranch st2 n = some b2 ∧ b2.tip = rb.tip)
    ∧ (o.tip ≠ rb.tip → (pull_branch st n o wf eu ed).2.isSome = true) := by
  rw [pull_branch_behind st n t b rb o wf eu ed hb ht hlt hrt hA hB]
  constructor
  · intro st2 hres
    by_cases hbad : o.flags ≠ (if st.activeBranch = n then 0 else FETCH_FAST_FORWARD)
        ∨ o.tip ≠ rb.tip
    · rw [if_pos hbad] at hres
      exact absurd (congrArg Prod.snd hres) (by simp)
    · rw [if_neg hbad] at hres
      push_neg at hbad
      have hst2 : st2 = setBranchTip
          (logEvent (if wf then fetch_updates st else st)
            (if st.activeBranch = n then Event.pull n else Event.fetchBranch n))
          n o.tip o.reach := (congrArg Prod.fst hres).symm
      refine ⟨hbad.2, ?_⟩
      rw [hst2, lookupBranch_setBranchTip]
      have hlb : lookupBranch
          (logEvent (if wf then fetch_updates st else st)
            (if st.activeBranch = n then Event.pull n else Event.fetchBranch n)) n
          = some b := by
        cases wf <;> simp [fetch_updates, lookupBranch_logEvent, hb]
      rw [if_pos rfl, hlb]
      exact ⟨_, rfl, hbad.2⟩
  · intro htip
    rw [if_pos (Or.inr htip)]
    rfl

/-- Witness for C10 on a concrete repository whose branch ube is behind
origin/ube, with a clean fast-forward fetch outcome. -/
theorem C10_pull_postcondition_witness :
    (5 : Nat) = 5
    ∧ ∃ b2, lookupBranch
        (pull_branch c10St "ube" ⟨0, 5, {0, 1, 5}⟩ false true true).1 "ube"
        = some b2 ∧ b2.tip = 5 := by
  have h := C10_pull_postcondition c10St "ube" "origin/ube"
    ⟨1, {0, 1}, some "origin/ube"⟩ ⟨5, {0, 1, 5}⟩ ⟨0, 5, {0, 1, 5}⟩ false true true
    (by decide) (by decide) (by decide) (by decide) (by decide) (by decide)
  have h2 := h.1 (pull_branch c10St "ube" ⟨0, 5, {0, 1, 5}⟩ false true true).1 (by decide)
  exact ⟨h2.1, h2.2⟩

/-- C2, failing input. The guard written in the source as
status in (Status.DIVERGED, status is Status.AHEAD) compares the status with
the boolean status is Status.AHEAD, which no enum member ever equals, so it
reduces to status == DIVERGED. On a mirrored branch whose local-remote copy
is AHEAD of the official copy the updater therefore raises nothing and
performs no operation at all, although the error message of the raise site
names this exact case; DIVERGED still fails as intended. -/
theorem C2_mirror_ahead_silently_skipped :
    branch_status c2St "origin/develop" (some "eb-source/develop")
      = Except.ok Status.AHEAD
    ∧ ebInvariantGuard Status.AHEAD = false
    ∧ update_from_easybuild_upstream_branch c2St "develop" "eb-source" c2Oc
      = (c2St, none)
    ∧ ebInvariantGuard Status.DIVERGED = true
    ∧ update_from_easybuild_upstream_branch c2StD "develop" "eb-source" c2Oc
      = (c2StD, some (GitError.invariantViolation "origin/develop")) := by
  exact ⟨by decide, by decide, by decide, by decide, by decide⟩

/-- Refutation for C8. On a concrete repository without a local hug branch
but with a remote origin/hug at tip 5, creating hug rooted at develop
(tip 3) yields a branch whose tip is the remote tip 5, not the given root
tip 3: when a same-named remote branch exists, the new branch is moved to
the remote commit rather than left at rootRef. -/
theorem C8_new_branch_counterexample :
    reachOfRef c8St "develop" = some (3, {0, 3})
    ∧ (new_branch c8St "hug" "develop" false).2 = none
    ∧ lookupBranch (new_branch c8St "hug" "develop" false).1 "hug"
      = some ⟨5, {0, 5}, some "origin/hug"⟩
    ∧ (5 : Nat) ≠ 3 := by
  exact ⟨by decide, by decide, by decide, by decide⟩

/-- C8 as amended. When the branch does not exist locally it is created at
rootRef and, if no remote carries a branch of that name, its tip stays at
the rootRef commit with no tracking branch; if some remote does, the branch
is additionally reset to that remote branch commit and set to track it; and
when a local branch of the name already exists the call is a no-op, or an
error exactly when the caller asked for one. -/
theorem C8_new_branch_spec (st : GitState) (name root : String)
    (rc : Nat × Finset Nat) (re : Bool) :
    (lookupBranch st name = none → resolveCommit st root = some rc →
      findTrackingRemote st.remoteBranches name st.remotes = none →
      ∃ st2, new_branch st name root re = (st2, none)
        ∧ lookupBranch st2 name = some ⟨rc.1, rc.2, none⟩)
    ∧ (∀ r rb, lookupBranch st name = none → resolveCommit st root = some rc →
      findTrackingRemote st.remoteBranches name st.remotes = some (r, rb) →
      ∃ st2, new_branch st name root re = (st2, none)
        ∧ lookupBranch st2 name = some ⟨rb.tip, rb.reach, some (r ++ "/" ++ name)⟩)
    ∧ ((lookupBranch st name).isSome = true → new_branch st name root false = (st, none))
    ∧ ((lookupBranch st name).isSome = true →
      new_branch st name root true = (st, some (GitError.branchExists name))) := by
  refine ⟨?_, ?_, ?_, ?_⟩
  · intro h1 h2 h3
    refine ⟨addBranch (logEvent st (Event.newHead name rc.1)) name
      ⟨rc.1, rc.2, none⟩, ?_, ?_⟩
    · simp only [new_branch, h1, h2, h3, Option.isSome_none, Bool.false_eq_true,
        if_false]
    · simp only [lookupBranch, addBranch, logEvent]
      exact assocLookup_append_fresh st.branches name _ h1
  · intro r rb h1 h2 h3
    refine ⟨setBranchFull
      (addBranch (logEvent st (Event.newHead name rc.1)) name ⟨rc.1, rc.2, none⟩)
      name ⟨rb.tip, rb.reach, some (r ++ "/" ++ name)⟩, ?_, ?_⟩
    · simp only [new_branch, h1, h2, h3, Option.isSome_none, Bool.false_eq_true,
        if_false]
    · simp only [lookupBranch, setBranchFull, addBranch, logEvent]
      rw [assocLookup_setEntryFull, if_pos rfl,
        assocLookup_append_fresh st.branches name _ h1]
      rfl
  · intro h1
    simp [new_branch, h1]
  · intro h1
    simp [new_branch, h1]

/-- Witness for the amended C8: creating the test_node branch rooted at
develop on a repository whose origin carries no test_node branch leaves the
tip at the develop commit with no tracking branch. -/
theorem C8_new_branch_spec_witness :
    ∃ st2, new_branch c8St "test_node" "develop" false = (st2, none)
      ∧ lookupBranch st2 "test_node" = some ⟨3, {0, 3}, none⟩ := by
  exact (C8_new_branch_spec c8St "test_node" "develop" (3, {0, 3}) false).1
    (by decide) (by decide) (by decide)

theorem log_setBranchTip (st : GitState) (n : String) (t : Nat) (r : Finset Nat) :
    (setBranchTip st n t r).log = st.log := rfl

theorem log_logEvent (st : GitState) (e : Event) :
    (logEvent st e).log = st.log ++ [e] := rfl

theorem fst_switchForOp (st : GitState) (n : String) : (switchForOp st n).1 = st := by
  unfold switchForOp
  split_ifs <;> rfl

theorem switchForOp_eta (st : GitState) (n : String) :
    switchForOp st n = (st, (switchForOp st n).2) := by
  unfold switchForOp
  split_ifs <;> rfl

theorem fst_if_pair (c : Prop) [Decidable c] (a : GitState) (x y : Option GitError) :
    (if c then (a, x) else (a, y)).1 = a := by
  split <;> rfl

/-- A push only appends to the command log, and appends a forced push only
when force was allowed. -/
theorem push_branch_log_ext (st : GitState) (n : String) (o : PushOutcome)
    (af wf : Bool) :
    ∃ l, (push_branch st n o af wf).1.log = st.log ++ l
      ∧ ∀ b, Event.pushBranch b true ∈ l → af = true := by
  have hlog : (if wf then fetch_updates st else st).log
      = st.log ++ (if wf then [Event.fetchAll] else []) := by
    cases wf <;> simp [fetch_updates, logEvent]
  have hfa : ∀ b, Event.pushBranch b true ∈ (if wf then [Event.fetchAll] else []) →
      af = true := by
    intro b hm
    cases wf <;> simp at hm
  rcases hbs : branch_status (if wf then fetch_updates st else st) n none with e | s
  · exact ⟨if wf then [Event.fetchAll] else [], by simp [push_branch, hbs, hlog], hfa⟩
  · by_cases h1 : s = Status.AHEAD
    · subst h1
      refine ⟨(if wf then [Event.fetchAll] else []) ++ [Event.pushBranch n false], ?_, ?_⟩
      · simp [push_branch, hbs, fst_if_pair, logEvent, hlog]
      · intro b hm
        rcases List.mem_append.mp hm with hm | hm
        · exact hfa b hm
        · simp at hm
    · by_cases h2 : s = Status.DIVERGED
      · subst h2
        by_cases haf : af = true
        · refine ⟨(if wf then [Event.fetchAll] else []) ++ [Event.pushBranch n true],
            ?_, fun b _ => haf⟩
          simp [push_branch, hbs, h1, haf, fst_if_pair, logEvent, hlog]
        · exact ⟨if wf then [Event.fetchAll] else [],
            by simp [push_branch, hbs, h1, haf, hlog], hfa⟩
      · by_cases h3 : s = Status.NO_UPSTREAM
        · subst h3
          refine ⟨(if wf then [Event.fetchAll] else []) ++ [Event.pushBranch n false],
            ?_, ?_⟩
          · simp [push_branch, hbs, h1, h2, fst_if_pair, logEvent, hlog]
          · intro b hm
            rcases List.mem_append.mp hm with hm | hm
            · exact hfa b hm
            · simp at hm
        · exact ⟨if wf then [Event.fetchAll] else [],
            by simp [push_branch, hbs, h1, h2, h3, hlog], hfa⟩

/-- A merge only appends to the command log and never appends a push. -/
theorem merge_branch_log_ext (st : GitState) (n m : String) (o : MergeOutcome) :
    ∃ l, (merge_branch st n m o).1.log = st.log ++ l
      ∧ ∀ b f2, Event.pushBranch b f2 ∉ l := by
  have hfb : ∃ l, (match switchForOp st n with
      | (st1, some e) => (st1, some e)
      | (st1, none) =>
        if o.conflict then (st1, some (GitError.mergeConflict n))
        else (setBranchTip (logEvent st1 (Event.mergeInto n m)) n o.tip o.reach,
          none)).1.log = st.log ++ l ∧ ∀ b f2, Event.pushBranch b f2 ∉ l := by
    rcases hsw2 : (switchForOp st n).2 with _ | e
    · have key : switchForOp st n = (st, none) := by rw [switchForOp_eta, hsw2]
      cases hc : o.conflict
      · exact ⟨[Event.mergeInto n m],
          by simp [key, hc, logEvent, log_setBranchTip], by simp⟩
      · exact ⟨[], by simp [key, hc], by simp⟩
    · have key : switchForOp st n = (st, some e) := by rw [switchForOp_eta, hsw2]
      exact ⟨[], by simp [key], by simp⟩
  rcases hbs : branch_status st n (some m) with e | s
  · exact ⟨[], by simp [merge_branch, hbs], by simp⟩
  · by_cases h1 : s = Status.BEHIND
    · subst h1
      rcases hmr : reachOfRef st m with _ | mr
      · exact ⟨[], by simp [merge_branch, hbs, hmr], by simp⟩
      · rcases hlb : lookupBranch st n with _ | b
        · obtain ⟨l, hl, hnp⟩ := hfb
          refine ⟨l, ?_, hnp⟩
          simp only [merge_branch, hbs, hmr, reset_branch, hlb]
          simpa using hl
        · by_cases hdirty : st.activeBranch = n ∧ st.dirty = true
          · obtain ⟨l, hl, hnp⟩ := hfb
            refine ⟨l, ?_, hnp⟩
            simp only [merge_branch, hbs, hmr, reset_branch, hlb, if_pos hdirty]
            simpa using hl
          · exact ⟨[Event.resetTo n mr.1],
              by simp [merge_branch, hbs, hmr, reset_branch, hlb, hdirty, logEvent,
                log_setBranchTip],
              by simp⟩
    · obtain ⟨l, hl, hnp⟩ := hfb
      refine ⟨l, ?_, hnp⟩
      simp only [merge_branch, hbs, h1, if_false]
      simpa using hl

/-- A pull only appends to the command log. -/
theorem pull_branch_log_ext (st : GitState) (n : String) (o : PullOutcome)
    (wf eu ed : Bool) :
    ∃ l, (pull_branch st n o wf eu ed).1.log = st.log ++ l := by
  have hlog : (if wf then fetch_updates st else st).log
      = st.log ++ (if wf then [Event.fetchAll] else []) := by
    cases wf <;> simp [fetch_updates, logEvent]
  rcases hbs : branch_status (if wf then fetch_updates st else st) n none with e | s
  · exact ⟨if wf then [Event.fetchAll] else [], by simp [pull_branch, hbs, hlog]⟩
  · by_cases h1 : s = Status.BEHIND
    · subst h1
      rcases hlb : lookupBranch (if wf then fetch_updates st else st) n with _ | b
      · exact ⟨if wf then [Event.fetchAll] else [], by simp [pull_branch, hbs, hlb, hlog]⟩
      · rcases htr : b.tracking with _ | t
        · exact ⟨if wf then [Event.fetchAll] else [],
            by simp [pull_branch, hbs, hlb, htr, hlog]⟩
        · rcases hrt : lookupRemote (if wf then fetch_updates st else st) t with _ | rb
          · exact ⟨if wf then [Event.fetchAll] else [],
              by simp [pull_branch, hbs, hlb, htr, hrt, hlog]⟩
          · by_cases hact : (if wf then fetch_updates st else st).activeBranch = n
            · refine ⟨(if wf then [Event.fetchAll] else []) ++ [Event.pull n], ?_⟩
              simp [pull_branch, hbs, hlb, htr, hrt, hact, fst_if_pair, logEvent,
                log_setBranchTip, hlog]
            · refine ⟨(if wf then [Event.fetchAll] else []) ++ [Event.fetchBranch n], ?_⟩
              simp [pull_branch, hbs, hlb, htr, hrt, hact, fst_if_pair, logEvent,
                log_setBranchTip, hlog]
    · by_cases hd : s = Status.DIVERGED ∧ ed = true
      · exact ⟨if wf then [Event.fetchAll] else [],
          by simp [pull_branch, hbs, h1, hd, hlog]⟩
      · by_cases hn : s = Status.NO_UPSTREAM ∧ eu = true
        · exact ⟨if wf then [Event.fetchAll] else [],
            by simp [pull_branch, hbs, h1, hd, hn, hlog]⟩
        · exact ⟨if wf then [Event.fetchAll] else [],
            by simp [pull_branch, hbs, h1, hd, hn, hlog]⟩

/-- A pull-or-reset reconciliation only appends to the command log. -/
theorem pull_or_reset_log_ext (n : String) (st : GitState) (a da : UserAnswer)
    (o : PullOutcome) :
    ∃ l, (pull_or_reset_to_upstream n st a da o).1.log = st.log ++ l := by
  rcases hbs : branch_status st n none with e | s
  · exact ⟨[], by simp [pull_or_reset_to_upstream, hbs]⟩
  · by_cases h1 : s = Status.UP_TO_DATE ∨ s = Status.AHEAD
    · exact ⟨[], by simp [pull_or_reset_to_upstream, hbs, h1]⟩
    · rcases hlb : lookupBranch st n with _ | b
      · exact ⟨[], by simp [pull_or_reset_to_upstream, hbs, h1, hlb]⟩
      · rcases htr : b.tracking with _ | t
        · exact ⟨[], by simp [pull_or_reset_to_upstream, hbs, h1, hlb, htr]⟩
        · rcases hrt : lookupRemote st t with _ | rb
          · exact ⟨[], by simp [pull_or_reset_to_upstream, hbs, h1, hlb, htr, hrt]⟩
          · by_cases h2 : s = Status.BEHIND
              ∨ (if s = Status.DIVERGED ∧ a = UserAnswer.INTERACTIVE then da else a)
                = UserAnswer.NO
            · obtain ⟨l, hl⟩ := pull_branch_log_ext st n o false true true
              exact ⟨l, by
                simp only [pull_or_reset_to_upstream, hbs, h1, hlb, htr, hrt, if_false]
                rw [if_pos h2]
                exact hl⟩
            · by_cases hdirty : st.activeBranch = n ∧ st.dirty = true
              · exact ⟨[], by
                  simp only [pull_or_reset_to_upstream, hbs, h1, hlb, htr, hrt, if_false]
                  rw [if_neg h2]
                  simp [reset_branch, hlb, hdirty]⟩
              · exact ⟨[Event.resetTo n rb.tip], by
                  simp only [pull_or_reset_to_upstream, hbs, h1, hlb, htr, hrt, if_false]
                  rw [if_neg h2]
                  simp [reset_branch, hlb, hdirty, logEvent, log_setBranchTip]⟩

/-- The peer-branch loop only appends to the command log. -/
theorem peersGo_log_ext (bs : List String) (st : GitState) (a : UserAnswer)
    (op : String → PullOutcome) (od : String → UserAnswer) :
    ∃ l, (peersGo st bs a op od).1.log = st.log ++ l := by
  induction bs generalizing st with
  | nil => exact ⟨[], by simp [peersGo]⟩
  | cons b bs ih =>
    obtain ⟨l1, hl1⟩ := pull_or_reset_log_ext b st a (od b) (op b)
    rcases hres : pull_or_reset_to_upstream b st a (od b) (op b) with ⟨st1, pe⟩
    rw [hres] at hl1
    cases pe with
    | none =>
      obtain ⟨l2, hl2⟩ := ih st1
      exact ⟨l1 ++ l2, by
        simp only [peersGo, hres]
        rw [hl2]
        simp at hl1
        simp [hl1]⟩
    | some e =>
      exact ⟨l1, by simp only [peersGo, hres]; simpa using hl1⟩

/-- Shape of the integration block when the node branch has DIVERGED from
main on a clean tree with the node branch checked out and a conflict-free
rebase: the rebase onto the current main tip runs, then the force-allowed
push. -/
theorem integrate_diverged_result (st : GitState) (cfg : SBConfig) (o : UpdateOracles)
    (mt : Nat) (mr : Finset Nat)
    (hst : branch_status st cfg.node_branch (some st.mainBranch)
      = Except.ok Status.DIVERGED)
    (hd : st.dirty = false)
    (ha : st.activeBranch = cfg.node_branch)
    (hmp : reachOfRef st st.mainBranch = some (mt, mr))
    (hc : o.nodeRebase.conflict = false) :
    integrate_node st cfg o =
      push_branch
        (setBranchTip (logEvent st (Event.rebaseOnto cfg.node_branch mt))
          cfg.node_branch o.nodeRebase.tip o.nodeRebase.reach)
        cfg.node_branch o.pushIntegrate true false := by
  simp [integrate_node, hst, hd, rebase_branch, switchForOp, ha, hmp, hc]

/-- C7. Node-branch integration against main: UP_TO_DATE does nothing and
publishes nothing; BEHIND fast-forwards the node branch (a reset to the main
tip) and any subsequent publish is a non-forced push; DIVERGED (clean tree,
node branch checked out, conflict-free rebase whose result still diverges
from the node upstream) rebases onto main and then publishes with a forced
push; and a forced push can enter the log only on the DIVERGED path. -/
theorem C7_integration_policy (st : GitState) (cfg : SBConfig) (o : UpdateOracles) :
    (branch_status st cfg.node_branch (some st.mainBranch)
        = Except.ok Status.UP_TO_DATE →
      integrate_node st cfg o = (st, none))
    ∧ (∀ mp b, branch_status st cfg.node_branch (some st.mainBranch)
        = Except.ok Status.BEHIND →
      reachOfRef st st.mainBranch = some mp →
      lookupBranch st cfg.node_branch = some b →
      ¬ (st.activeBranch = cfg.node_branch ∧ st.dirty = true) →
      ∃ l, (integrate_node st cfg o).1.log
          = st.log ++ [Event.resetTo cfg.node_branch mp.1] ++ l
        ∧ ∀ b2, Event.pushBranch b2 true ∉ l)
    ∧ (∀ mp, branch_status st cfg.node_branch (some st.mainBranch)
        = Except.ok Status.DIVERGED →
      st.dirty = false →
      st.activeBranch = cfg.node_branch →
      reachOfRef st st.mainBranch = some mp →
      o.nodeRebase.conflict = false →
      branch_status
          (setBranchTip (logEvent st (Event.rebaseOnto cfg.node_branch mp.1))
            cfg.node_branch o.nodeRebase.tip o.nodeRebase.reach)
          cfg.node_branch none = Except.ok Status.DIVERGED →
      ∃ l, (integrate_node st cfg o).1.log
          = st.log ++ [Event.rebaseOnto cfg.node_branch mp.1] ++ l
        ∧ Event.pushBranch cfg.node_branch true ∈ l)
    ∧ (∀ b2, Event.pushBranch b2 true ∈ (integrate_node st cfg o).1.log →
      Event.pushBranch b2 true ∈ st.log
      ∨ branch_status st cfg.node_branch (some st.mainBranch)
          = Except.ok Status.DIVERGED) := by
  refine ⟨?_, ?_, ?_, ?_⟩
  · intro hst
    simp [integrate_node, hst]
  · intro mp b hst hmp hlb hnd
    have hmerge : merge_branch st cfg.node_branch st.mainBranch o.nodeMerge =
        (setBranchTip (logEvent st (Event.resetTo cfg.node_branch mp.1))
          cfg.node_branch mp.1 mp.2, none) := by
      simp [merge_branch, hst, hmp, reset_branch, hlb, hnd]
    have hint : integrate_node st cfg o =
        push_branch
          (setBranchTip (logEvent st (Event.resetTo cfg.node_branch mp.1))
            cfg.node_branch mp.1 mp.2)
          cfg.node_branch o.pushIntegrate false false := by
      simp [integrate_node, hst, hmerge]
    obtain ⟨l, hl, hforce⟩ := push_branch_log_ext
      (setBranchTip (logEvent st (Event.resetTo cfg.node_branch mp.1))
        cfg.node_branch mp.1 mp.2)
      cfg.node_branch o.pushIntegrate false false
    refine ⟨l, ?_, fun b2 hm => absurd (hforce b2 hm) (by simp)⟩
    rw [hint, hl]
    simp [log_setBranchTip, log_logEvent]
  · intro mp hst hd ha hmp hc hpost
    have hint := integrate_diverged_result st cfg o mp.1 mp.2 hst hd ha hmp hc
    have hpush : (push_branch
        (setBranchTip (logEvent st (Event.rebaseOnto cfg.node_branch mp.1))
          cfg.node_branch o.nodeRebase.tip o.nodeRebase.reach)
        cfg.node_branch o.pushIntegrate true false).1 =
        logEvent
          (setBranchTip (logEvent st (Event.rebaseOnto cfg.node_branch mp.1))
            cfg.node_branch o.nodeRebase.tip o.nodeRebase.reach)
          (Event.pushBranch cfg.node_branch true) := by
      simp [push_branch, hpost, fst_if_pair]
    refine ⟨[Event.pushBranch cfg.node_branch true], ?_, by simp⟩
    rw [hint, hpush]
    simp [log_setBranchTip, log_logEvent]
  · intro b2 hm
    rcases hbs : branch_status st cfg.node_branch (some st.mainBranch) with e | s
    · rw [integrate_node, hbs] at hm
      exact Or.inl hm
    · by_cases h1 : s = Status.BEHIND
      · subst h1
        obtain ⟨l1, hl1, hnp1⟩ := merge_branch_log_ext st cfg.node_branch st.mainBranch
          o.nodeMerge
        rcases hmr : merge_branch st cfg.node_branch st.mainBranch o.nodeMerge
          with ⟨st1, pe⟩
        rw [hmr] at hl1
        simp only at hl1
        cases pe with
        | some e =>
          rw [integrate_node, hbs] at hm
          simp [hmr] at hm
          rw [hl1] at hm
          rcases List.mem_append.mp hm with hm | hm
          · exact Or.inl hm
          · exact absurd hm (hnp1 b2 true)
        | none =>
          obtain ⟨l2, hl2, hf2⟩ := push_branch_log_ext st1 cfg.node_branch
            o.pushIntegrate false false
          rw [integrate_node, hbs] at hm
          simp [hmr] at hm
          rw [hl2, hl1] at hm
          rcases List.mem_append.mp hm with hm | hm
          · rcases List.mem_append.mp hm with hm | hm
            · exact Or.inl hm
            · exact absurd hm (hnp1 b2 true)
          · exact absurd (hf2 b2 hm) (by simp)
      · by_cases h2 : s = Status.DIVERGED
        · subst h2
          exact Or.inr rfl
        · rw [integrate_node, hbs] at hm
          simp [h1, h2] at hm
          exact Or.inl hm

/-- Witness for C7 at three concrete repositories: UP_TO_DATE does nothing,
BEHIND fast-forwards hug to the develop tip with no forced push, DIVERGED
rebases hug onto the develop tip and then force-pushes. -/
theorem C7_integration_policy_witness :
    integrate_node w7a cfg7 o7 = (w7a, none)
    ∧ (∃ l, (integrate_node w7b cfg7 o7).1.log
        = w7b.log ++ [Event.resetTo "hug" 3] ++ l
      ∧ ∀ b2, Event.pushBranch b2 true ∉ l)
    ∧ (∃ l, (integrate_node w7c cfg7 o7).1.log
        = w7c.log ++ [Event.rebaseOnto "hug" 3] ++ l
      ∧ Event.pushBranch "hug" true ∈ l) := by
  refine ⟨(C7_integration_policy w7a cfg7 o7).1 (by decide), ?_, ?_⟩
  · exact (C7_integration_policy w7b cfg7 o7).2.1 (3, {0, 3}) ⟨0, {0}, none⟩
      (by decide) (by decide) (by decide) (by decide)
  · exact (C7_integration_policy w7c cfg7 o7).2.2.1 (3, {0, 3})
      (by decide) (by decide) (by decide) (by decide) (by decide) (by decide)

/-- A reconciliation of a BEHIND branch is exactly the fetchless pull with
its default error flags, for every policy and dialog answer. -/
theorem pull_or_reset_behind (st : GitState) (n t : String) (b : LBranch)
    (rb : RBranch) (a da : UserAnswer) (o : PullOutcome)
    (hb : lookupBranch st n = some b) (ht : b.tracking = some t)
    (hlt : lookupBranch st t = none) (hrt : lookupRemote st t = some rb)
    (hA : (b.reach \ rb.reach).card = 0) (hB : (rb.reach \ b.reach).card ≠ 0) :
    pull_or_reset_to_upstream n st a da o = pull_branch st n o false true true := by
  have hst : branch_status st n none = Except.ok Status.BEHIND := by
    rw [branch_status_tracked st n t b rb hb ht hlt hrt, hA]
    simp [statusOfCounts, hB]
  simp [pull_or_reset_to_upstream, hst, hb, ht, hrt]

/-- A reconciliation of an UP_TO_DATE branch does nothing. -/
theorem pull_or_reset_noop (st : GitState) (n : String) (a da : UserAnswer)
    (o : PullOutcome)
    (hst : branch_status st n none = Except.ok Status.UP_TO_DATE) :
    pull_or_reset_to_upstream n st a da o = (st, none) := by
  simp [pull_or_reset_to_upstream, hst]

/-- C4. In the per-repository update sequence, when the node branch exists
and is checked out on a clean tree, the main branch is BEHIND its upstream
(whose tip differs from the stale main tip), the node branch is UP_TO_DATE
with its own upstream but has DIVERGED from the pulled main history, the
fetch outcome is a clean fast-forward and the rebase raises no conflict:
then the run rebases the node branch onto the post-pull main tip (the
remote main tip, different from the pre-pull tip), and the pull of main
appears in the log strictly before that rebase. -/
theorem C4_main_reconciled_before_node_integration
    (st : GitState) (cfg : SBConfig) (o : UpdateOracles)
    (nb mb : LBranch) (rmb rnb : RBranch) (tm tn : String)
    (hnm : cfg.node_branch ≠ st.mainBranch)
    (hnb : lookupBranch st cfg.node_branch = some nb)
    (hmb : lookupBranch st st.mainBranch = some mb)
    (hmtr : mb.tracking = some tm)
    (hlmt : lookupBranch st tm = none)
    (hrmt : lookupRemote st tm = some rmb)
    (hntr : nb.tracking = some tn)
    (hlnt : lookupBranch st tn = none)
    (hrnt : lookupRemote st tn = some rnb)
    (hmA : (mb.reach \ rmb.reach).card = 0)
    (hmB : (rmb.reach \ mb.reach).card ≠ 0)
    (htip : mb.tip ≠ rmb.tip)
    (hnA : (nb.reach \ rnb.reach).card = 0)
    (hnB : (rnb.reach \ nb.reach).card = 0)
    (hdA : (nb.reach \ rmb.reach).card ≠ 0)
    (hdB : (rmb.reach \ nb.reach).card ≠ 0)
    (hact : st.activeBranch = cfg.node_branch)
    (hdirty : st.dirty = false)
    (hofl : o.pullMain.flags = FETCH_FAST_FORWARD)
    (hotip : o.pullMain.tip = rmb.tip)
    (horeach : o.pullMain.reach = rmb.reach)
    (hconf : o.nodeRebase.conflict = false) :
    ∃ l1 l2, (update_local_repo st cfg o).1.log
        = st.log ++ l1 ++ [Event.rebaseOnto cfg.node_branch rmb.tip] ++ l2
      ∧ Event.fetchBranch st.mainBranch ∈ l1
      ∧ rmb.tip ≠ mb.tip := by
  have hens : ensure_node_branch st cfg o = (st, none) := by
    simp [ensure_node_branch, hnb]
  set stF := fetch_updates st with hstF
  have hmbF : lookupBranch stF st.mainBranch = some mb := hmb
  have hlmtF : lookupBranch stF tm = none := hlmt
  have hrmtF : lookupRemote stF tm = some rmb := hrmt
  have hne : ¬ (stF.activeBranch = st.mainBranch) := by
    have : stF.activeBranch = cfg.node_branch := hact
    rw [this]
    exact hnm
  have hmain2 := pull_branch_behind stF st.mainBranch tm mb rmb o.pullMain
    false true true hmbF hmtr hlmtF hrmtF hmA hmB
  simp only [if_neg hne, hofl, hotip, horeach] at hmain2
  simp at hmain2
  set st3 := setBranchTip (logEvent stF (Event.fetchBranch st.mainBranch))
    st.mainBranch rmb.tip rmb.reach with hst3
  have hmain : pull_or_reset_to_upstream st.mainBranch stF UserAnswer.NO
      UserAnswer.NO o.pullMain = (st3, none) := by
    rw [pull_or_reset_behind stF st.mainBranch tm mb rmb UserAnswer.NO UserAnswer.NO
      o.pullMain hmbF hmtr hlmtF hrmtF hmA hmB]
    exact hmain2
  have hl3node : lookupBranch st3 cfg.node_branch = some nb := by
    rw [hst3, lookupBranch_setBranchTip, if_neg hnm]
    exact hnb
  have hl3tn : lookupBranch st3 tn = none := by
    rw [hst3, lookupBranch_setBranchTip]
    have h0 : lookupBranch (logEvent stF (Event.fetchBranch st.mainBranch)) tn
        = none := hlnt
    rw [h0]
    split <;> simp
  have hrt3 : lookupRemote st3 tn = some rnb := hrnt
  have hst3node : branch_status st3 cfg.node_branch none
      = Except.ok Status.UP_TO_DATE := by
    rw [branch_status_tracked st3 cfg.node_branch tn nb rnb hl3node hntr hl3tn hrt3]
    simp [statusOfCounts, hnA, hnB]
  have hnode : pull_or_reset_to_upstream cfg.node_branch st3
      cfg.allow_reset_node_branch o.dialogNode o.pullNode = (st3, none) :=
    pull_or_reset_noop st3 cfg.node_branch cfg.allow_reset_node_branch o.dialogNode
      o.pullNode hst3node
  have hm3 : st3.mainBranch = st.mainBranch := rfl
  have hl3main : lookupBranch st3 st.mainBranch
      = some { mb with tip := rmb.tip, reach := rmb.reach } := by
    rw [hst3, lookupBranch_setBranchTip, if_pos rfl]
    have h0 : lookupBranch (logEvent stF (Event.fetchBranch st.mainBranch))
        st.mainBranch = some mb := hmb
    rw [h0]
    rfl
  have hstint : branch_status st3 cfg.node_branch (some st3.mainBranch)
      = Except.ok Status.DIVERGED := by
    rw [hm3]
    simp [branch_status, statusVs, reachOfRef, hl3node, hl3main, statusOfCounts,
      hdA, hdB]
  have hmp3 : reachOfRef st3 st3.mainBranch = some (rmb.tip, rmb.reach) := by
    rw [hm3]
    simp [reachOfRef, hl3node, hl3main]
  have hd3 : st3.dirty = false := hdirty
  have ha3 : st3.activeBranch = cfg.node_branch := hact
  have hint := integrate_diverged_result st3 cfg o rmb.tip rmb.reach hstint hd3 ha3
    hmp3 hconf
  set st5 := setBranchTip (logEvent st3 (Event.rebaseOnto cfg.node_branch rmb.tip))
    cfg.node_branch o.nodeRebase.tip o.nodeRebase.reach with hst5
  have hlog5 : st5.log = ((st.log ++ [Event.fetchAll])
      ++ [Event.fetchBranch st.mainBranch])
      ++ [Event.rebaseOnto cfg.node_branch rmb.tip] := rfl
  have hmF : stF.mainBranch = st.mainBranch := rfl
  have hrun : update_local_repo st cfg o =
      (match push_branch st5 cfg.node_branch o.pushIntegrate true false with
       | (pst, some e) => (pst, some e)
       | (pst, none) => peersGo pst
           (cfg.other_node_branches.filter (fun b => (lookupBranch pst b).isSome))
           cfg.allow_reset_other_nodes_branch o.peerPull o.peerDialog) := by
    simp only [update_local_repo, hens, ← hstF, hmF, hmain, hnode, hint]
  obtain ⟨l3, hl5, _⟩ := push_branch_log_ext st5 cfg.node_branch o.pushIntegrate
    true false
  rcases hpr : push_branch st5 cfg.node_branch o.pushIntegrate true false
    with ⟨pst, pe⟩
  rw [hpr] at hl5
  simp only at hl5
  cases pe with
  | some e =>
    refine ⟨[Event.fetchAll, Event.fetchBranch st.mainBranch], l3, ?_, by simp,
      fun h => htip h.symm⟩
    rw [hrun, hpr]
    simp only
    rw [hl5, hlog5]
    simp [List.append_assoc]
  | none =>
    obtain ⟨l4, hl6⟩ := peersGo_log_ext
      (cfg.other_node_branches.filter (fun b => (lookupBranch pst b).isSome)) pst
      cfg.allow_reset_other_nodes_branch o.peerPull o.peerDialog
    refine ⟨[Event.fetchAll, Event.fetchBranch st.mainBranch], l3 ++ l4, ?_, by simp,
      fun h => htip h.symm⟩
    rw [hrun, hpr]
    simp only
    rw [hl6, hl5, hlog5]
    simp [List.append_assoc]

/-- Witness for C4 on the concrete repository w4St: the run rebases hug onto
the post-pull develop tip 5 (not the stale tip 3) after the recorded fetch
of develop. -/
theorem C4_main_reconciled_before_node_integration_witness :
    ∃ l1 l2, (update_local_repo w4St cfg4 o4).1.log
        = w4St.log ++ l1 ++ [Event.rebaseOnto "hug" 5] ++ l2
      ∧ Event.fetchBranch "develop" ∈ l1
      ∧ (5 : Nat) ≠ 3 := by
  exact C4_main_reconciled_before_node_integration w4St cfg4 o4
    ⟨4, {0, 4}, some "origin/hug"⟩ ⟨3, {0, 3}, some "origin/develop"⟩
    ⟨5, {0, 3, 5}⟩ ⟨4, {0, 4}⟩ "origin/develop" "origin/hug"
    (by decide) (by decide) (by decide) (by decide) (by decide) (by decide)
    (by decide) (by decide) (by decide) (by decide) (by decide) (by decide)
    (by decide) (by decide) (by decide) (by decide) (by decide) (by decide)
    (by decide) (by decide) (by decide) (by decide)

end SB
